import Mathlib

/-!
Verification of the request-relay / document-assembly service (`src/app.py`).

JSON values are modelled by the inductive `Json` below (numbers restricted to
integers, which covers every numeric value the code under test manipulates).
Python dictionaries are association lists with unique keys; `List.lookup`
mirrors `dict.get`. Fallible Python code (attribute errors, type errors on
iteration) is modelled with `Except String`.
-/

/-- A JSON value: the input/output domain of the service's helpers. -/
inductive Json where
  | null : Json
  | bool (b : Bool) : Json
  | num (n : Int) : Json
  | str (s : String) : Json
  | arr (items : List Json) : Json
  | obj (fields : List (String × Json)) : Json

/-- Python truthiness (`bool(x)`) on JSON-decoded values. -/
def pyTruthy : Json → Bool
  | Json.null => false
  | Json.bool b => b
  | Json.num n => n != 0
  | Json.str s => s != ""
  | Json.arr items => !items.isEmpty
  | Json.obj fields => !fields.isEmpty

/-- Whether a JSON value is a mapping (`isinstance(x, dict)`). -/
def Json.isObj : Json → Bool
  | Json.obj _ => true
  | _ => false

/-- Whether a JSON value is a list (`isinstance(x, list)`). -/
def Json.isArr : Json → Bool
  | Json.arr _ => true
  | _ => false

/-- Per-element step of `_normalize_content_parts` (`src/app.py:30-54`): each
loop iteration appends at most one element to `normalized`, returned here as
an `Option`. -/
def _normalize_part (part : Json) : Option Json :=
  match part with
  | Json.obj fields =>
    match fields.lookup "type" with
    | some (Json.str t) =>
      if t == "text" || t == "input_text" then
        match fields.lookup "text" with
        | some (Json.str textValue) =>
          some (Json.obj [("type", Json.str "input_text"), ("text", Json.str textValue)])
        | _ => none
      else if t == "image_url" || t == "input_image" then
        match
          (match fields.lookup "image_url" with
           | some (Json.obj urlFields) => urlFields.lookup "url"
           | other => other) with
        | some (Json.str urlValue) =>
          if urlValue ≠ "" then
            some (Json.obj [("type", Json.str "input_image"), ("image_url", Json.str urlValue)])
          else none
        | _ => none
      else if t == "input_audio" || t == "input_video" || t == "input_file" then
        some part
      else none
    | _ => none
  | _ => none

/-- `_normalize_content_parts` (`src/app.py:24-61`): normal pass collects the
per-element results; if nothing survived, the fallback re-emits every mapping
element of the input unchanged. Non-list input yields `[]`. -/
def _normalize_content_parts (content_parts : Json) : List Json :=
  match content_parts with
  | Json.arr parts =>
    let normalized := parts.filterMap _normalize_part
    if normalized.isEmpty then parts.filter Json.isObj else normalized
  | _ => []

/-- Whitespace in the sense of Python's `str.strip` (ASCII range; the service
only ever strips the upstream "output_text" field with it). -/
def pyIsSpace (ch : Char) : Bool :=
  ch == ' ' || ch == '\t' || ch == '\n' || ch == '\r' || ch == Char.ofNat 11 || ch == Char.ofNat 12

/-- `output_text.strip()` truthiness: the string has a non-whitespace character. -/
def stripTruthy (s : String) : Bool :=
  s.data.any (fun ch => !pyIsSpace ch)

/-- Text fragments contributed by one element of the "output" list
(`src/app.py:76-89`): only mapping items tagged `type = "message"` contribute,
and only their mapping contents with a non-empty string "text" field. -/
def messageTexts (item : Json) : List String :=
  match item with
  | Json.obj fields =>
    match fields.lookup "type" with
    | some (Json.str "message") =>
      (match
        (let contents := (fields.lookup "content").getD Json.null
         if pyTruthy contents then contents else Json.arr []) with
       | Json.arr contents =>
         contents.filterMap (fun content =>
           match content with
           | Json.obj cfields =>
             match cfields.lookup "text" with
             | some (Json.str t) => if t ≠ "" then some t else none
             | _ => none
           | _ => none)
       | _ => [])
    | _ => []
  | _ => []

/-- Concatenation of `messageTexts` over the "output" list, in encounter order. -/
def collectTexts : List Json → List String
  | [] => []
  | item :: rest => messageTexts item ++ collectTexts rest

/-- Legacy fallback of `_extract_text_from_response` (`src/app.py:95-103`):
`choices[0].message.content` when `choices` is a non-empty list, the first
choice a mapping, its "message" a mapping, and that mapping's "content" a
string; otherwise the empty string. -/
def choicesFallback (fields : List (String × Json)) : String :=
  match fields.lookup "choices" with
  | some (Json.arr (firstChoice :: _)) =>
    (match firstChoice with
     | Json.obj cfields =>
       match cfields.lookup "message" with
       | some (Json.obj mfields) =>
         (match mfields.lookup "content" with
          | some (Json.str content) => content
          | _ => "")
       | _ => ""
     | _ => "")
  | _ => ""

/-- Rules 2-4 of `_extract_text_from_response`: scan "output", else legacy
"choices", else the empty string. -/
def extractAfterOutputText (fields : List (String × Json)) : String :=
  let collected :=
    match fields.lookup "output" with
    | some (Json.arr items) => collectTexts items
    | _ => []
  if collected ≠ [] then String.intercalate "\n" collected
  else choicesFallback fields

/-- `_extract_text_from_response` (`src/app.py:64-105`): a non-dict payload
yields `""`; a string "output_text" that is non-empty after stripping is
returned verbatim; otherwise the "output" scan, then the legacy "choices"
shape, then `""`. -/
def _extract_text_from_response (response_payload : Json) : String :=
  match response_payload with
  | Json.obj fields =>
    match fields.lookup "output_text" with
    | some (Json.str s) => if stripTruthy s then s else extractAfterOutputText fields
    | _ => extractAfterOutputText fields
  | _ => ""

/-- The standard base64 alphabet, in value order. -/
def base64Alphabet : List Char :=
  ['A', 'B', 'C', 'D', 'E', 'F', 'G', 'H', 'I', 'J', 'K', 'L', 'M',
   'N', 'O', 'P', 'Q', 'R', 'S', 'T', 'U', 'V', 'W', 'X', 'Y', 'Z',
   'a', 'b', 'c', 'd', 'e', 'f', 'g', 'h', 'i', 'j', 'k', 'l', 'm',
   'n', 'o', 'p', 'q', 'r', 's', 't', 'u', 'v', 'w', 'x', 'y', 'z',
   '0', '1', '2', '3', '4', '5', '6', '7', '8', '9', '+', '/']

/-- Character for a 6-bit value. -/
def b64CharOf (k : Nat) : Char := base64Alphabet.getD k 'A'

/-- 6-bit value of a character, `none` outside the alphabet. -/
def b64CharVal (ch : Char) : Option Nat :=
  base64Alphabet.findIdx? (fun a => a == ch)

/-- Standard base64 encoding of a byte list (the behaviour of the stdlib
`base64.b64encode` that produced the data URLs the service decodes):
3-byte groups become 4 characters; a 1- or 2-byte tail is padded with `=`. -/
def b64encodeChunks : List Nat → List Char
  | [] => []
  | [b1] =>
    let n := b1 * 65536
    [b64CharOf (n / 262144), b64CharOf (n / 4096 % 64), '=', '=']
  | [b1, b2] =>
    let n := b1 * 65536 + b2 * 256
    [b64CharOf (n / 262144), b64CharOf (n / 4096 % 64), b64CharOf (n / 64 % 64), '=']
  | b1 :: b2 :: b3 :: rest =>
    let n := b1 * 65536 + b2 * 256 + b3
    b64CharOf (n / 262144) :: b64CharOf (n / 4096 % 64) :: b64CharOf (n / 64 % 64)
      :: b64CharOf (n % 64) :: b64encodeChunks rest

/-- CPython's lenient `binascii.a2b_base64` loop, one character at a time.
State: `quad_pos` is the position within the current 4-character group (0-3),
`leftchar` the bits carried over from the previous character, `pads` the
padding characters seen at the current group position. Characters outside
the alphabet are skipped; a `=` at position >= 2 that completes a group
stops decoding, everything after it being ignored; a group left incomplete
at the end of the input is an error (`binascii.Error`, modelled `none`). -/
def a2b_base64_loop : List Char → Nat → Nat → Nat → Option (List Nat)
  | [], quad_pos, _, _ => if quad_pos = 0 then some [] else none
  | c :: rest, quad_pos, leftchar, pads =>
    if c = '=' then
      if 2 ≤ quad_pos then
        if 4 ≤ quad_pos + (pads + 1) then some []
        else a2b_base64_loop rest quad_pos leftchar (pads + 1)
      else a2b_base64_loop rest quad_pos leftchar pads
    else
      match b64CharVal c with
      | none => a2b_base64_loop rest quad_pos leftchar pads
      | some d =>
        match quad_pos with
        | 0 => a2b_base64_loop rest 1 d 0
        | 1 => (a2b_base64_loop rest 2 (d % 16) 0).map
                 (fun tail => (leftchar * 4 + d / 16) :: tail)
        | 2 => (a2b_base64_loop rest 3 (d % 4) 0).map
                 (fun tail => (leftchar * 16 + d / 4) :: tail)
        | _ => (a2b_base64_loop rest 0 0 0).map
                 (fun tail => (leftchar * 64 + d) :: tail)

/-- Model of `base64.b64decode` on a `str` argument in its default lenient
mode: the string is first ASCII-encoded — a character outside ASCII raises
`ValueError` (`none` here) — and the bytes are then decoded by the lenient
`a2b_base64` loop. -/
def b64decode (l : List Char) : Option (List Nat) :=
  if l.any (fun ch => 128 ≤ ch.toNat) then none
  else a2b_base64_loop l 0 0 0

/-- Substring test (`";base64" in header`): the pattern occurs as a
contiguous run somewhere in the list. -/
def hasInfix (pat : List Char) : List Char → Bool
  | [] => pat.isEmpty
  | c :: rest => pat.isPrefixOf (c :: rest) || hasInfix pat rest

/-- `str.split(",", 1)`: `none` when there is no comma (the `ValueError`
branch of `_decode_data_url`), otherwise the part before the first comma and
everything after it. -/
def splitFirstComma : List Char → Option (List Char × List Char)
  | [] => none
  | ch :: rest =>
    if ch = ',' then some ([], rest)
    else
      match splitFirstComma rest with
      | some (before, after) => some (ch :: before, after)
      | none => none

/-- `_decode_data_url` (`src/app.py:192-205`) on the characters of a string
argument: falsy (empty) or non-`data:`-prefixed input yields `none`; the
string is split at its first comma (no comma: `none`); the header must
contain `;base64`; the payload is then base64-decoded, decode failure
yielding `none`. -/
def _decode_data_url (data_url : List Char) : Option (List Nat) :=
  if data_url = [] then none
  else if "data:".data.isPrefixOf data_url then
    match splitFirstComma data_url with
    | some (header, encoded) =>
      if hasInfix ";base64".data header then b64decode encoded else none
    | none => none
  else none

/-- An apostrophe (Python's repr quote). -/
def quoteChar : Char := Char.ofNat 39

mutual
/-- Python `repr` of a JSON-decoded value (what `str()` shows for non-string
values): `None`/`True`/`False`, decimal integers, quoted strings, bracketed
lists and braced dicts. Inner string escaping is not modelled; the service
never feeds quote-bearing strings to `str()`. -/
def pyRepr : Json → List Char
  | Json.null => "None".data
  | Json.bool true => "True".data
  | Json.bool false => "False".data
  | Json.num n => (toString n).data
  | Json.str s => quoteChar :: s.data ++ [quoteChar]
  | Json.arr items => '[' :: pyReprItems items ++ [']']
  | Json.obj fields => Char.ofNat 123 :: pyReprFields fields ++ [Char.ofNat 125]

/-- Comma-joined reprs of list elements. -/
def pyReprItems : List Json → List Char
  | [] => []
  | [x] => pyRepr x
  | x :: y :: rest => pyRepr x ++ ", ".data ++ pyReprItems (y :: rest)

/-- Comma-joined `'key': value` reprs of dict entries. -/
def pyReprFields : List (String × Json) → List Char
  | [] => []
  | [(k, v)] => quoteChar :: k.data ++ [quoteChar] ++ ": ".data ++ pyRepr v
  | (k, v) :: kv :: rest =>
    quoteChar :: k.data ++ [quoteChar] ++ ": ".data ++ pyRepr v ++ ", ".data
      ++ pyReprFields (kv :: rest)
end

/-- Python `str()` of a JSON-decoded value: strings verbatim, otherwise repr. -/
def pyStr (j : Json) : List Char :=
  match j with
  | Json.str s => s.data
  | _ => pyRepr j

/-- Python `iter()` over a JSON-decoded value: lists yield their elements,
strings their characters (as 1-character strings), dicts their keys;
`None`, booleans and numbers raise `TypeError`. -/
def pyIter : Json → Except String (List Json)
  | Json.arr items => .ok items
  | Json.str s => .ok (s.data.map (fun ch => Json.str (String.mk [ch])))
  | Json.obj fields => .ok (fields.map (fun kv => Json.str kv.1))
  | _ => .error "TypeError"

/-- `dict.get(key, default)` on a JSON value; non-mapping receivers raise
`AttributeError` (the crash path for a non-dict report payload). -/
def pyDictGetD (j : Json) (key : String) (default : Json) : Except String Json :=
  match j with
  | Json.obj fields => .ok ((fields.lookup key).getD default)
  | _ => .error "AttributeError"

/-- `str.split('\n')`: always at least one (possibly empty) line. -/
def splitLines : List Char → List (List Char)
  | [] => [[]]
  | '\n' :: rest =>
    [] :: splitLines rest
  | ch :: rest =>
    match splitLines rest with
    | line :: more => (ch :: line) :: more
    | [] => [[ch]]

/-- `title.replace('.pdf', '')` (`src/app.py:228`): remove every
non-overlapping occurrence of ".pdf", scanning left to right. -/
def stripPdfAll : List Char → List Char
  | [] => []
  | '.' :: 'p' :: 'd' :: 'f' :: rest => stripPdfAll rest
  | ch :: rest => ch :: stripPdfAll rest

/-- Python Unicode `str.isalnum`, restricted to the character classes the
service's titles use: ASCII alphanumerics and Hangul syllables. -/
def pyIsAlnum (ch : Char) : Bool :=
  ch.isAlphanum || (0xAC00 ≤ ch.toNat && ch.toNat ≤ 0xD7A3)

/-- `str.strip()` over characters. -/
def pyStripChars (l : List Char) : List Char :=
  ((l.dropWhile pyIsSpace).reverse.dropWhile pyIsSpace).reverse

/-- `_sanitize_filename` (`src/app.py:208-211`): drop the last dot-suffix,
keep only alphanumerics, spaces, underscores and hyphens, strip, and fall
back to "analysis_report" when nothing is left. -/
def _sanitize_filename (filename : List Char) : List Char :=
  let base_name :=
    if filename.contains '.' then
      ((filename.reverse.dropWhile (fun c => c != '.')).drop 1).reverse
    else filename
  let safe := pyStripChars (base_name.filter
    (fun ch => pyIsAlnum ch || ch == ' ' || ch == '_' || ch == '-'))
  if safe = [] then "analysis_report".data else safe

/-- One item appended to the python-docx `Document` while assembling a report. -/
inductive DocItem where
  | heading (level : Nat) (text : List Char) : DocItem
  | para (text : List Char) : DocItem
  | labeledPara (label text : List Char) : DocItem
  | pageBreak : DocItem
  | picture (bytes : List Nat) : DocItem
  | emptyPara : DocItem
deriving DecidableEq

/-- The visible placeholder paragraph for a failed `add_picture` call. -/
def imageFailMsg (msg : String) : List Char :=
  "[이미지 추가 실패: ".data ++ msg.data ++ "]".data

/-- `_decode_data_url` as called on an arbitrary JSON value: a falsy argument
returns `None` at once; a truthy string is decoded; a truthy non-string
raises `AttributeError` at `data_url.startswith`. -/
def decodeDataUrlValue (data_url : Json) : Except String (Option (List Nat)) :=
  if pyTruthy data_url then
    match data_url with
    | Json.str s => .ok (_decode_data_url s.data)
    | _ => .error "AttributeError"
  else .ok none

/-- Document items produced for one image entry once its decode result is
known (`src/app.py:256-263`): falsy bytes (decode failure or empty payload)
are skipped; otherwise `add_picture` is attempted, a failure (reported by the
`pictureErr` oracle for the external image library) yielding the placeholder
paragraph. -/
def imageDocItemsOfBytes (pictureErr : List Nat → Option String) :
    Option (List Nat) → List DocItem
  | none => []
  | some bytes =>
    if bytes = [] then []
    else
      match pictureErr bytes with
      | none => [DocItem.picture bytes]
      | some msg => [DocItem.para (imageFailMsg msg)]

/-- The image loop of one analysis group (`src/app.py:255-263`). -/
def renderImages (pictureErr : List Nat → Option String) :
    List Json → Except String (List DocItem)
  | [] => .ok []
  | u :: rest =>
    match decodeDataUrlValue u with
    | .error e => .error e
    | .ok bytesOpt =>
      match renderImages pictureErr rest with
      | .error e => .error e
      | .ok tail => .ok (imageDocItemsOfBytes pictureErr bytesOpt ++ tail)

/-- One iteration of the `analysis_results` loop (`src/app.py:239-269`):
group subheading (pages joined by ", " or "N/A"), bold-labelled intent
paragraph, image items, analysis lines, trailing empty paragraph. A truthy
non-iterable "pages" or "images" value raises `TypeError`. -/
def renderGroup (pictureErr : List Nat → Option String) (index : Nat)
    (result : Json) : Except String (List DocItem) :=
  let groupFields : List (String × Json) :=
    match result with
    | Json.obj fields =>
      (match fields.lookup "group" with
       | some (Json.obj gfields) => gfields
       | _ => [])
    | _ => []
  let group_id : Json := (groupFields.lookup "id").getD (Json.num index)
  let pagesRaw : Json := (groupFields.lookup "pages").getD Json.null
  match
    (if pyTruthy pagesRaw then
      match pyIter pagesRaw with
      | Except.ok pages => Except.ok (List.intercalate ", ".data (pages.map pyStr))
      | Except.error e => Except.error e
     else (Except.ok "N/A".data : Except String (List Char))) with
  | .error e => .error e
  | .ok pages_text =>
    let intent : Json := (groupFields.lookup "intent").getD (Json.str "")
    let imagesRaw : Json :=
      match result with
      | Json.obj fields => (fields.lookup "images").getD Json.null
      | _ => Json.arr []
    match (if pyTruthy imagesRaw then pyIter imagesRaw else Except.ok []) with
    | .error e => .error e
    | .ok imageList =>
      match renderImages pictureErr imageList with
      | .error e => .error e
      | .ok imageItems =>
        let analysis : Json :=
          match result with
          | Json.obj fields => (fields.lookup "analysis").getD (Json.str "")
          | _ => Json.str ""
        .ok ([DocItem.heading 2
                ("그룹 ".data ++ pyStr group_id ++ " (페이지: ".data ++ pages_text ++ ")".data),
              DocItem.labeledPara "분석 초점: ".data (pyStr intent)]
             ++ imageItems
             ++ (splitLines (pyStr analysis)).map DocItem.para
             ++ [DocItem.emptyPara])

/-- The `enumerate(analysis_results, start=1)` loop. -/
def renderGroups (pictureErr : List Nat → Option String) :
    Nat → List Json → Except String (List DocItem)
  | _, [] => .ok []
  | index, result :: rest =>
    match renderGroup pictureErr index result with
    | .error e => .error e
    | .ok block =>
      match renderGroups pictureErr (index + 1) rest with
      | .error e => .error e
      | .ok tail => .ok (block ++ tail)

/-- Document assembly of `create_report` (`src/app.py:219-269`) on the
effective payload, also returning the `title` value the filename is later
derived from. `now` stands for the `datetime.now()` timestamp string. An
`AttributeError` on a non-mapping payload or a non-string title, and any
`TypeError` from the group loop, abort assembly (Flask's 500 path). -/
def create_report_document (pictureErr : List Nat → Option String)
    (now : List Char) (payload : Json) : Except String (List DocItem × Json) :=
  match pyDictGetD payload "title" (Json.str "보고서") with
  | .error e => .error e
  | .ok title =>
  match pyDictGetD payload "global_summary" (Json.str "") with
  | .error e => .error e
  | .ok global_summary =>
  match pyDictGetD payload "analysis_results" (Json.arr []) with
  | .error e => .error e
  | .ok analysis_results0 =>
  let analysis_results : List Json :=
    match analysis_results0 with
    | Json.arr l => l
    | _ => []
  match
    (match title with
     | Json.str s => Except.ok (stripPdfAll s.data)
     | _ => Except.error "AttributeError") with
  | .error e => .error e
  | .ok titleHeading =>
  match renderGroups pictureErr 1 analysis_results with
  | .error e => .error e
  | .ok groupItems =>
    .ok ((DocItem.heading 0 titleHeading
      :: DocItem.para ("생성일: ".data ++ now)
      :: DocItem.pageBreak
      :: DocItem.heading 1 "Executive Summary".data
      :: (splitLines (pyStr global_summary)).map DocItem.para)
      ++ (DocItem.pageBreak
      :: DocItem.heading 1 "상세 분석 (Detailed Analysis)".data
      :: groupItems), title)

/-- A `/create-report` request as the handler sees it: `is_json` mirrors
Flask's `request.is_json` (a Content-Type check only), and `body` the result
of `request.get_json(silent=True)` — `none` when the body fails to parse as
JSON. -/
structure ReportRequest where
  is_json : Bool
  body : Option Json

/-- The handler's response: the 400 JSON error, a document download with its
filename, or an unhandled-exception 500. -/
inductive ReportResponse where
  | badRequest (error : String) : ReportResponse
  | document (filename : List Char) (doc : List DocItem) : ReportResponse
  | serverError (error : String) : ReportResponse
deriving DecidableEq

/-- The 400 message of `create_report`. -/
def invalidRequestMsg : String := "유효하지 않은 요청 형식입니다. JSON 데이터를 전송해주세요."

/-- Whether a response is a document download. -/
def ReportResponse.isDocument : ReportResponse → Bool
  | ReportResponse.document _ _ => true
  | _ => false

/-- The document items of a response (empty for non-document responses). -/
def ReportResponse.docItems : ReportResponse → List DocItem
  | ReportResponse.document _ doc => doc
  | _ => []

/-- `create_report` (`src/app.py:214-282`): 400 unless the Content-Type is
JSON; the parsed body (or `{}` when parsing failed or the value is falsy) is
assembled into a document served under a filename derived from the original
title, and an exception during assembly is a 500. -/
def create_report (pictureErr : List Nat → Option String) (now : List Char)
    (req : ReportRequest) : ReportResponse :=
  if req.is_json = false then ReportResponse.badRequest invalidRequestMsg
  else
    let payload : Json :=
      match req.body with
      | none => Json.obj []
      | some v => if pyTruthy v then v else Json.obj []
    match create_report_document pictureErr now payload with
    | .error e => ReportResponse.serverError e
    | .ok (doc, title) =>
      ReportResponse.document
        (_sanitize_filename (pyStr title) ++ "_analysis_report.docx".data) doc

/-- One analysis group of a well-formed `ReportSpec` (§3 of the spec): an id,
page numbers, an intent text, image data-URL strings, an analysis text. -/
structure GroupSpec where
  gid : Int
  pages : List Int
  intent : String
  images : List String
  analysis : String

/-- A well-formed report spec: title, global summary, ordered groups. -/
structure ReportSpec where
  title : String
  global_summary : String
  analysis_results : List GroupSpec

/-- The JSON wire form of a group. -/
def GroupSpec.toJson (g : GroupSpec) : Json :=
  Json.obj [("group", Json.obj [("id", Json.num g.gid),
                                ("pages", Json.arr (g.pages.map Json.num)),
                                ("intent", Json.str g.intent)]),
            ("images", Json.arr (g.images.map Json.str)),
            ("analysis", Json.str g.analysis)]

/-- The JSON wire form of a report spec. -/
def ReportSpec.toJson (r : ReportSpec) : Json :=
  Json.obj [("title", Json.str r.title),
            ("global_summary", Json.str r.global_summary),
            ("analysis_results", Json.arr (r.analysis_results.map GroupSpec.toJson))]

/-- The comma-joined page list of a group subheading, "N/A" when empty. -/
def pagesText (pages : List Int) : List Char :=
  if pages.isEmpty then "N/A".data
  else List.intercalate ", ".data (pages.map (fun n => (toString n).data))

/-- The document items of one image data-URL string. -/
def imageItems (pictureErr : List Nat → Option String) (u : String) : List DocItem :=
  imageDocItemsOfBytes pictureErr (_decode_data_url u.data)

/-- The document items of a group's image list. -/
def imagesBlock (pictureErr : List Nat → Option String) : List String → List DocItem
  | [] => []
  | u :: rest => imageItems pictureErr u ++ imagesBlock pictureErr rest

/-- The document block of one well-formed group. -/
def groupBlock (pictureErr : List Nat → Option String) (g : GroupSpec) : List DocItem :=
  [DocItem.heading 2
     ("그룹 ".data ++ (toString g.gid).data ++ " (페이지: ".data ++ pagesText g.pages ++ ")".data),
   DocItem.labeledPara "분석 초점: ".data g.intent.data]
  ++ imagesBlock pictureErr g.images
  ++ (splitLines g.analysis.data).map DocItem.para
  ++ [DocItem.emptyPara]

/-- The document blocks of all groups, in order. -/
def groupsBlock (pictureErr : List Nat → Option String) : List GroupSpec → List DocItem
  | [] => []
  | g :: rest => groupBlock pictureErr g ++ groupsBlock pictureErr rest

/-- The fixed part of every assembled document, before the group blocks. -/
def docIntro (now : List Char) (title global_summary : String) : List DocItem :=
  (DocItem.heading 0 (stripPdfAll title.data)
   :: DocItem.para ("생성일: ".data ++ now)
   :: DocItem.pageBreak
   :: DocItem.heading 1 "Executive Summary".data
   :: (splitLines global_summary.data).map DocItem.para)
  ++ [DocItem.pageBreak, DocItem.heading 1 "상세 분석 (Detailed Analysis)".data]

/-- Canonical content-part discriminators of the Responses API: the two
produced by normalization plus the three passthrough block types the code
comments call "already-normalized". -/
def canonicalTags : List String :=
  ["input_text", "input_image", "input_audio", "input_video", "input_file"]

/-- Whether a part is a mapping tagged with one of the given types. -/
def isTaggedWith (tags : List String) (j : Json) : Bool :=
  match j with
  | Json.obj fields =>
    (match fields.lookup "type" with
     | some (Json.str t) => tags.contains t
     | _ => false)
  | _ => false

/-- Tagged with a canonical discriminator. -/
def isCanonicalTagged (j : Json) : Bool := isTaggedWith canonicalTags j

/-- Tagged as canonical text or image. -/
def isTextImageTagged (j : Json) : Bool := isTaggedWith ["input_text", "input_image"] j

/-- The canonical text/image part a raw part normalizes to, if any: the
recognizable text and image parts of the input are exactly those on which
this is `some`. -/
def canonicalTextImage (p : Json) : Option Json :=
  Option.filter isTextImageTagged (_normalize_part p)

theorem norm_part_canonical (p q : Json) (h : _normalize_part p = some q) :
    isCanonicalTagged q = true := by
  cases p <;> simp only [_normalize_part] at h <;> try exact Option.noConfusion h
  case obj fields =>
    repeat' split at h
    all_goals try exact Option.noConfusion h
    all_goals injection h with h
    all_goals subst h
    all_goals try rfl
    rename_i t htype hc1 hc2 hc3
    simp only [Bool.or_eq_true, beq_iff_eq] at hc3
    simp only [isCanonicalTagged, isTaggedWith, htype, canonicalTags]
    rcases hc3 with (hc3 | hc3) | hc3 <;> subst hc3 <;> rfl

theorem normalize_arr_of_survivor (parts : List Json)
    (h : parts.filterMap _normalize_part ≠ []) :
    _normalize_content_parts (Json.arr parts) = parts.filterMap _normalize_part := by
  simp only [_normalize_content_parts]
  rw [if_neg]
  simp [List.isEmpty_iff, h]

theorem normalize_arr_fallback (parts : List Json)
    (h : parts.filterMap _normalize_part = []) :
    _normalize_content_parts (Json.arr parts) = parts.filter Json.isObj := by
  simp only [_normalize_content_parts]
  rw [if_pos]
  simp [List.isEmpty_iff, h]

/-- C3: the claim "for every non-empty all-unrecognized input list, normalize
returns the original list unchanged" is false: a non-mapping element (here the
bare number `42`) is not re-emitted by the passthrough fallback, so the
all-unrecognized singleton `[42]` normalizes to `[]`, not to itself. -/
theorem C3_counterexample :
    ([Json.num 42] : List Json) ≠ [] ∧
    [Json.num 42].filterMap _normalize_part = [] ∧
    _normalize_content_parts (Json.arr [Json.num 42]) ≠ [Json.num 42] := by
  refine ⟨by simp, rfl, fun h => ?_⟩
  rw [show _normalize_content_parts (Json.arr [Json.num 42]) = [] from rfl] at h
  exact List.noConfusion h

/-- C3 (amended): for every non-empty input list in which no element survives
normalization, the passthrough fallback returns the mapping elements of the
original list unchanged and in order; in particular the whole original list
when every element is a mapping. -/
theorem C3_theorem (parts : List Json) (hne : parts ≠ [])
    (hnone : parts.filterMap _normalize_part = []) :
    _normalize_content_parts (Json.arr parts) = parts.filter Json.isObj ∧
    ((∀ p ∈ parts, p.isObj = true) → _normalize_content_parts (Json.arr parts) = parts) := by
  have hmain := normalize_arr_fallback parts hnone
  refine ⟨hmain, fun hall => ?_⟩
  rw [hmain, List.filter_eq_self.mpr hall]

/-- C3 witness: a non-empty list of one unrecognized mapping passes through
unchanged. -/
theorem C3_witness :
    ([Json.obj [("type", Json.str "weird")]] : List Json) ≠ [] ∧
    [Json.obj [("type", Json.str "weird")]].filterMap _normalize_part = [] ∧
    _normalize_content_parts (Json.arr [Json.obj [("type", Json.str "weird")]]) =
      [Json.obj [("type", Json.str "weird")]] := by
  refine ⟨by simp, rfl, ?_⟩
  exact (C3_theorem [Json.obj [("type", Json.str "weird")]] (by simp) rfl).2
    (by simp [Json.isObj])

/-- C4: when at least one input element is a recognizable text or image part,
no fallback happens: every output element carries a canonical discriminator,
and the canonical forms of the recognizable text/image parts appear in the
output exactly in their input order. -/
theorem C4_theorem (parts : List Json)
    (h : ∃ p ∈ parts, (canonicalTextImage p).isSome = true) :
    (∀ q ∈ _normalize_content_parts (Json.arr parts), isCanonicalTagged q = true) ∧
    (_normalize_content_parts (Json.arr parts)).filter isTextImageTagged =
      parts.filterMap canonicalTextImage := by
  obtain ⟨p, hp, hsome⟩ := h
  have hps : (_normalize_part p).isSome = true := by
    unfold canonicalTextImage at hsome
    cases hq : _normalize_part p with
    | none => rw [hq] at hsome; simp [Option.filter] at hsome
    | some q => simp
  obtain ⟨q, hq⟩ := Option.isSome_iff_exists.mp hps
  have hmem : q ∈ parts.filterMap _normalize_part := List.mem_filterMap.mpr ⟨p, hp, hq⟩
  have heq := normalize_arr_of_survivor parts (List.ne_nil_of_mem hmem)
  constructor
  · intro q' hq'
    rw [heq] at hq'
    obtain ⟨p', _, hp'⟩ := List.mem_filterMap.mp hq'
    exact norm_part_canonical p' q' hp'
  · rw [heq, List.filter_filterMap]
    rfl

/-- C4 witness: a list with one legacy text part and one non-mapping element. -/
theorem C4_witness :
    (∃ p ∈ [Json.obj [("type", Json.str "text"), ("text", Json.str "hi")], Json.num 3],
       (canonicalTextImage p).isSome = true) ∧
    (∀ q ∈ _normalize_content_parts
        (Json.arr [Json.obj [("type", Json.str "text"), ("text", Json.str "hi")], Json.num 3]),
       isCanonicalTagged q = true) ∧
    (_normalize_content_parts
        (Json.arr [Json.obj [("type", Json.str "text"), ("text", Json.str "hi")], Json.num 3])).filter
        isTextImageTagged =
      [Json.obj [("type", Json.str "text"), ("text", Json.str "hi")],
       Json.num 3].filterMap canonicalTextImage := by
  have h : ∃ p ∈ [Json.obj [("type", Json.str "text"), ("text", Json.str "hi")], Json.num 3],
      (canonicalTextImage p).isSome = true :=
    ⟨Json.obj [("type", Json.str "text"), ("text", Json.str "hi")],
     List.mem_cons_self _ _, rfl⟩
  exact ⟨h, (C4_theorem _ h).1, (C4_theorem _ h).2⟩

/-- C5: extractText is a total function into strings, and on JSON values with
no parseable text — `null`, numbers, strings, booleans, lists, the empty
object — it returns the empty string. -/
theorem C5_theorem :
    (∀ j : Json, ∃ s : String, _extract_text_from_response j = s) ∧
    _extract_text_from_response Json.null = "" ∧
    _extract_text_from_response (Json.num 7) = "" ∧
    _extract_text_from_response (Json.str "x") = "" ∧
    _extract_text_from_response (Json.bool true) = "" ∧
    _extract_text_from_response (Json.arr [Json.num 1]) = "" ∧
    _extract_text_from_response (Json.obj []) = "" :=
  ⟨fun j => ⟨_, rfl⟩, rfl, rfl, rfl, rfl, rfl, rfl⟩

/-- C6: the claim fails on whitespace-only strings: `" "` is a non-empty
string, yet extractText on `{"output_text": " "}` does not return it
verbatim (the code requires `output_text.strip()` to be truthy and falls
through to `""`). -/
theorem C6_counterexample :
    (" " : String) ≠ "" ∧
    _extract_text_from_response (Json.obj [("output_text", Json.str " ")]) ≠ " " := by
  constructor <;> decide

/-- C6 (amended): whenever the "output_text" field is a string with at least
one non-whitespace character, extractText returns it verbatim, regardless of
any further fields ("output", "choices", ...) in the payload. -/
theorem C6_theorem (s : String) (fields : List (String × Json))
    (h : stripTruthy s = true) :
    _extract_text_from_response (Json.obj (("output_text", Json.str s) :: fields)) = s := by
  have hl : (("output_text", Json.str s) :: fields).lookup "output_text" =
      some (Json.str s) := by simp [List.lookup]
  simp [_extract_text_from_response, hl, h]

/-- C6 witness: `{"output_text": "hello", "output": []}` extracts to "hello". -/
theorem C6_witness :
    stripTruthy "hello" = true ∧
    _extract_text_from_response
      (Json.obj [("output_text", Json.str "hello"), ("output", Json.arr [])]) = "hello" :=
  ⟨by decide, C6_theorem "hello" [("output", Json.arr [])] (by decide)⟩

/-- C10: the normalizer never emits more parts than it was given — the normal
pass keeps at most one output per input element and the fallback re-emits a
sublist — and non-list input yields a length-zero output. -/
theorem C10_theorem (j : Json) :
    (_normalize_content_parts j).length ≤
      (match j with | Json.arr parts => parts.length | _ => 0) := by
  cases j with
  | arr parts =>
    show (_normalize_content_parts (Json.arr parts)).length ≤ parts.length
    by_cases h : parts.filterMap _normalize_part = []
    · rw [normalize_arr_fallback parts h]
      exact List.length_filter_le _ _
    · rw [normalize_arr_of_survivor parts h]
      exact List.length_filterMap_le _ _
  | null => exact Nat.le_refl 0
  | bool b => exact Nat.le_refl 0
  | num n => exact Nat.le_refl 0
  | str s => exact Nat.le_refl 0
  | obj fields => exact Nat.le_refl 0

theorem charVal_range : ∀ k ∈ List.range 64, b64CharVal (b64CharOf k) = some k := by decide

theorem charOf_ne_pad_range : ∀ k ∈ List.range 64, b64CharOf k ≠ '=' := by decide

theorem charOf_ascii_range : ∀ k ∈ List.range 64, (b64CharOf k).toNat < 128 := by decide

theorem charVal_charOf (k : Nat) (h : k < 64) : b64CharVal (b64CharOf k) = some k :=
  charVal_range k (List.mem_range.mpr h)

theorem charOf_ne_pad (k : Nat) : b64CharOf k ≠ '=' := by
  by_cases h : k < 64
  · exact charOf_ne_pad_range k (List.mem_range.mpr h)
  · rw [show b64CharOf k = 'A' from
      List.getD_eq_default base64Alphabet 'A' (by simp [base64Alphabet]; omega)]
    decide

theorem charOf_ascii (k : Nat) : (b64CharOf k).toNat < 128 := by
  by_cases h : k < 64
  · exact charOf_ascii_range k (List.mem_range.mpr h)
  · rw [show b64CharOf k = 'A' from
      List.getD_eq_default base64Alphabet 'A' (by simp [base64Alphabet]; omega)]
    decide

theorem b64encode_ascii : ∀ (bytes : List Nat), ∀ ch ∈ b64encodeChunks bytes, ch.toNat < 128
  | [], _, h => by simp [b64encodeChunks] at h
  | [b1], ch, h => by
    simp only [b64encodeChunks, List.mem_cons, List.not_mem_nil, or_false] at h
    rcases h with h | h | h | h <;> subst h <;> first | exact charOf_ascii _ | decide
  | [b1, b2], ch, h => by
    simp only [b64encodeChunks, List.mem_cons, List.not_mem_nil, or_false] at h
    rcases h with h | h | h | h <;> subst h <;> first | exact charOf_ascii _ | decide
  | [b1, b2, b3], ch, h => by
    simp only [b64encodeChunks, List.mem_cons, List.not_mem_nil, or_false] at h
    rcases h with h | h | h | h <;> subst h <;> exact charOf_ascii _
  | b1 :: b2 :: b3 :: b4 :: rest, ch, h => by
    simp only [b64encodeChunks, List.mem_cons] at h
    rcases h with h | h | h | h | h
    · subst h; exact charOf_ascii _
    · subst h; exact charOf_ascii _
    · subst h; exact charOf_ascii _
    · subst h; exact charOf_ascii _
    · exact b64encode_ascii (b4 :: rest) ch h

theorem b64encode_no_nonascii (bytes : List Nat) :
    (b64encodeChunks bytes).any (fun ch => 128 ≤ ch.toNat) = false := by
  rw [List.any_eq_false]
  intro ch hch
  have := b64encode_ascii bytes ch hch
  simp only [decide_eq_true_eq]
  omega

theorem a2b_step0 (k : Nat) (hk : k < 64) (rest : List Char) (leftchar pads : Nat) :
    a2b_base64_loop (b64CharOf k :: rest) 0 leftchar pads =
      a2b_base64_loop rest 1 k 0 := by
  simp only [a2b_base64_loop]
  rw [if_neg (charOf_ne_pad k)]
  simp only [charVal_charOf k hk]

theorem a2b_step1 (k : Nat) (hk : k < 64) (rest : List Char) (leftchar pads : Nat) :
    a2b_base64_loop (b64CharOf k :: rest) 1 leftchar pads =
      (a2b_base64_loop rest 2 (k % 16) 0).map
        (fun tail => (leftchar * 4 + k / 16) :: tail) := by
  simp only [a2b_base64_loop]
  rw [if_neg (charOf_ne_pad k)]
  simp only [charVal_charOf k hk]

theorem a2b_step2 (k : Nat) (hk : k < 64) (rest : List Char) (leftchar pads : Nat) :
    a2b_base64_loop (b64CharOf k :: rest) 2 leftchar pads =
      (a2b_base64_loop rest 3 (k % 4) 0).map
        (fun tail => (leftchar * 16 + k / 4) :: tail) := by
  simp only [a2b_base64_loop]
  rw [if_neg (charOf_ne_pad k)]
  simp only [charVal_charOf k hk]

theorem a2b_step3 (k : Nat) (hk : k < 64) (rest : List Char) (leftchar pads : Nat) :
    a2b_base64_loop (b64CharOf k :: rest) 3 leftchar pads =
      (a2b_base64_loop rest 0 0 0).map
        (fun tail => (leftchar * 64 + k) :: tail) := by
  simp only [a2b_base64_loop]
  rw [if_neg (charOf_ne_pad k)]
  simp only [charVal_charOf k hk]

theorem a2b_encode : ∀ (bytes : List Nat), (∀ b ∈ bytes, b < 256) →
    a2b_base64_loop (b64encodeChunks bytes) 0 0 0 = some bytes
  | [], _ => rfl
  | [b1], h => by
    have hb1 : b1 < 256 := h b1 (by simp)
    have h1 : b1 * 65536 / 262144 < 64 := by omega
    have h2 : b1 * 65536 / 4096 % 64 < 64 := by omega
    simp only [b64encodeChunks]
    rw [a2b_step0 _ h1, a2b_step1 _ h2,
      show ∀ left, a2b_base64_loop ['=', '='] 2 left 0 = some [] from fun _ => rfl]
    simp only [Option.map_some']
    congr 2
    omega
  | [b1, b2], h => by
    have hb1 : b1 < 256 := h b1 (by simp)
    have hb2 : b2 < 256 := h b2 (by simp)
    have h1 : (b1 * 65536 + b2 * 256) / 262144 < 64 := by omega
    have h2 : (b1 * 65536 + b2 * 256) / 4096 % 64 < 64 := by omega
    have h3 : (b1 * 65536 + b2 * 256) / 64 % 64 < 64 := by omega
    simp only [b64encodeChunks]
    rw [a2b_step0 _ h1, a2b_step1 _ h2, a2b_step2 _ h3,
      show ∀ left, a2b_base64_loop ['='] 3 left 0 = some [] from fun _ => rfl]
    simp only [Option.map_some']
    congr 2
    · omega
    · congr 1
      omega
  | [b1, b2, b3], h => by
    have hb1 : b1 < 256 := h b1 (by simp)
    have hb2 : b2 < 256 := h b2 (by simp)
    have hb3 : b3 < 256 := h b3 (by simp)
    have h1 : (b1 * 65536 + b2 * 256 + b3) / 262144 < 64 := by omega
    have h2 : (b1 * 65536 + b2 * 256 + b3) / 4096 % 64 < 64 := by omega
    have h3 : (b1 * 65536 + b2 * 256 + b3) / 64 % 64 < 64 := by omega
    have h4 : (b1 * 65536 + b2 * 256 + b3) % 64 < 64 := by omega
    simp only [b64encodeChunks]
    rw [a2b_step0 _ h1, a2b_step1 _ h2, a2b_step2 _ h3, a2b_step3 _ h4,
      show a2b_base64_loop [] 0 0 0 = some [] from rfl]
    simp only [Option.map_some']
    congr 2
    · omega
    · congr 1
      · omega
      · congr 1
        omega
  | b1 :: b2 :: b3 :: b4 :: rest, h => by
    have hb1 : b1 < 256 := h b1 (by simp)
    have hb2 : b2 < 256 := h b2 (by simp)
    have hb3 : b3 < 256 := h b3 (by simp)
    have htail : ∀ b ∈ b4 :: rest, b < 256 := fun b hb => h b (by simp [hb])
    have ih := a2b_encode (b4 :: rest) htail
    have h1 : (b1 * 65536 + b2 * 256 + b3) / 262144 < 64 := by omega
    have h2 : (b1 * 65536 + b2 * 256 + b3) / 4096 % 64 < 64 := by omega
    have h3 : (b1 * 65536 + b2 * 256 + b3) / 64 % 64 < 64 := by omega
    have h4 : (b1 * 65536 + b2 * 256 + b3) % 64 < 64 := by omega
    simp only [b64encodeChunks]
    rw [a2b_step0 _ h1, a2b_step1 _ h2, a2b_step2 _ h3, a2b_step3 _ h4, ih]
    simp only [Option.map_some']
    congr 2
    · omega
    · congr 1
      · omega
      · congr 1
        omega

theorem b64decode_encode (bytes : List Nat) (h : ∀ b ∈ bytes, b < 256) :
    b64decode (b64encodeChunks bytes) = some bytes := by
  have hascii : ¬ ((b64encodeChunks bytes).any (fun ch => 128 ≤ ch.toNat) = true) := by
    simp [b64encode_no_nonascii bytes]
  rw [b64decode, if_neg hascii]
  exact a2b_encode bytes h

theorem isPrefixOf_append_self (l r : List Char) : l.isPrefixOf (l ++ r) = true :=
  List.isPrefixOf_iff_prefix.mpr (List.prefix_append l r)

theorem hasInfix_append_self : ∀ (pre pat : List Char), hasInfix pat (pre ++ pat) = true
  | [], pat => by
    cases pat with
    | nil => rfl
    | cons c rest =>
      simp only [List.nil_append, hasInfix]
      rw [show (c :: rest).isPrefixOf (c :: rest) = true from by
        simpa using isPrefixOf_append_self (c :: rest) []]
      simp
  | c :: pre, pat => by
    simp only [List.cons_append, hasInfix, List.append_eq, hasInfix_append_self pre pat,
      Bool.or_true]

theorem splitFirstComma_append : ∀ (header payload : List Char), ',' ∉ header →
    splitFirstComma (header ++ ',' :: payload) = some (header, payload)
  | [], payload, _ => by simp [splitFirstComma]
  | c :: header, payload, h => by
    have hc : c ≠ ',' := fun hcc => h (by simp [hcc])
    have hrest : ',' ∉ header := fun hm => h (by simp [hm])
    simp only [List.cons_append, splitFirstComma, if_neg hc, List.append_eq,
      splitFirstComma_append header payload hrest]

/-- C7: data-URL decoding round-trips — wrapping the base64 encoding of any
byte sequence as `data:<mime>;base64,<payload>` (for a comma-free mime type)
decodes to exactly the original bytes — and any string that does not start
with `data:` decodes to none. -/
theorem C7_theorem :
    (∀ (bytes : List Nat) (mime : List Char), (∀ b ∈ bytes, b < 256) → ',' ∉ mime →
       _decode_data_url ("data:".data ++ mime ++ ";base64,".data ++ b64encodeChunks bytes) =
         some bytes) ∧
    (∀ s : List Char, "data:".data.isPrefixOf s = false → _decode_data_url s = none) := by
  constructor
  · intro bytes mime hb hm
    have hform : "data:".data ++ mime ++ ";base64,".data ++ b64encodeChunks bytes =
        ("data:".data ++ mime ++ ";base64".data) ++ (',' :: b64encodeChunks bytes) := by
      simp
    have hnocomma : ',' ∉ "data:".data ++ mime ++ ";base64".data := by
      intro hmem
      rcases List.mem_append.mp hmem with hmem | hmem
      · rcases List.mem_append.mp hmem with hmem | hmem
        · exact absurd hmem (by decide)
        · exact hm hmem
      · exact absurd hmem (by decide)
    have hsplit :
        splitFirstComma ("data:".data ++ mime ++ ";base64,".data ++ b64encodeChunks bytes) =
          some ("data:".data ++ mime ++ ";base64".data, b64encodeChunks bytes) := by
      rw [hform]
      exact splitFirstComma_append _ _ hnocomma
    have hne : "data:".data ++ mime ++ ";base64,".data ++ b64encodeChunks bytes ≠ [] := by
      simp
    have hinfix : hasInfix ";base64".data ("data:".data ++ mime ++ ";base64".data) = true :=
      hasInfix_append_self ("data:".data ++ mime) ";base64".data
    have hpre : ("data:".data).isPrefixOf
        ("data:".data ++ mime ++ ";base64,".data ++ b64encodeChunks bytes) = true := by
      apply List.isPrefixOf_iff_prefix.mpr
      rw [List.append_assoc, List.append_assoc]
      exact List.prefix_append _ _
    simp only [_decode_data_url]
    rw [if_neg hne, if_pos hpre]
    simp only [hsplit, hinfix, if_true]
    exact b64decode_encode bytes hb
  · intro s hpre
    by_cases hs : s = []
    · subst hs; rfl
    · simp [_decode_data_url, hs, hpre]

/-- C7 witness: the bytes `[72, 105]` round-trip through a `data:image/png`
URL, and the non-data string "hello" decodes to none. -/
theorem C7_witness :
    (∀ b ∈ [72, 105], b < 256) ∧ (',' ∉ "image/png".data) ∧
    _decode_data_url ("data:".data ++ "image/png".data ++ ";base64,".data ++
      b64encodeChunks [72, 105]) = some [72, 105] ∧
    "data:".data.isPrefixOf "hello".data = false ∧
    _decode_data_url "hello".data = none :=
  ⟨by decide, by decide,
   C7_theorem.1 [72, 105] "image/png".data (by decide) (by decide),
   by decide, C7_theorem.2 "hello".data (by decide)⟩

theorem decodeDataUrlValue_str (u : String) :
    decodeDataUrlValue (Json.str u) = .ok (_decode_data_url u.data) := by
  by_cases hu : u = ""
  · subst hu; rfl
  · have ht : pyTruthy (Json.str u) = true := by
      simp [pyTruthy, hu]
    simp [decodeDataUrlValue, ht]

theorem renderImages_strs (pictureErr : List Nat → Option String) :
    ∀ (urls : List String),
      renderImages pictureErr (urls.map Json.str) = .ok (imagesBlock pictureErr urls)
  | [] => rfl
  | u :: rest => by
    simp only [List.map, renderImages, decodeDataUrlValue_str,
      renderImages_strs pictureErr rest]
    rfl

theorem map_pyStr_num (pages : List Int) :
    (pages.map Json.num).map pyStr = pages.map (fun n => (toString n).data) := by
  rw [List.map_map]
  rfl

theorem renderGroup_spec (pictureErr : List Nat → Option String) (index : Nat)
    (g : GroupSpec) :
    renderGroup pictureErr index g.toJson = .ok (groupBlock pictureErr g) := by
  obtain ⟨gid, pages, intent, images, analysis⟩ := g
  cases images with
  | nil =>
    cases pages with
    | nil => rfl
    | cons p ps =>
      show Except.ok
        ([DocItem.heading 2 ("그룹 ".data ++ (toString gid).data ++ " (페이지: ".data
            ++ List.intercalate ", ".data (((p :: ps).map Json.num).map pyStr) ++ ")".data),
          DocItem.labeledPara "분석 초점: ".data intent.data]
         ++ [] ++ (splitLines analysis.data).map DocItem.para ++ [DocItem.emptyPara]) = _
      rw [map_pyStr_num]
      rfl
  | cons u us =>
    have himg := renderImages_strs pictureErr (u :: us)
    cases pages with
    | nil =>
      show (match renderImages pictureErr ((u :: us).map Json.str) with
            | Except.error e => Except.error e
            | Except.ok imageItems => Except.ok
              ([DocItem.heading 2 ("그룹 ".data ++ (toString gid).data ++ " (페이지: ".data
                  ++ "N/A".data ++ ")".data),
                DocItem.labeledPara "분석 초점: ".data intent.data]
               ++ imageItems ++ (splitLines analysis.data).map DocItem.para
               ++ [DocItem.emptyPara])) = _
      rw [himg]
      rfl
    | cons p ps =>
      show (match renderImages pictureErr ((u :: us).map Json.str) with
            | Except.error e => Except.error e
            | Except.ok imageItems => Except.ok
              ([DocItem.heading 2 ("그룹 ".data ++ (toString gid).data ++ " (페이지: ".data
                  ++ List.intercalate ", ".data (((p :: ps).map Json.num).map pyStr) ++ ")".data),
                DocItem.labeledPara "분석 초점: ".data intent.data]
               ++ imageItems ++ (splitLines analysis.data).map DocItem.para
               ++ [DocItem.emptyPara])) = _
      rw [himg, map_pyStr_num]
      rfl

theorem renderGroups_spec (pictureErr : List Nat → Option String) :
    ∀ (index : Nat) (gs : List GroupSpec),
      renderGroups pictureErr index (gs.map GroupSpec.toJson) = .ok (groupsBlock pictureErr gs)
  | _, [] => rfl
  | index, g :: gs => by
    simp only [List.map, renderGroups, renderGroup_spec,
      renderGroups_spec pictureErr (index + 1) gs]
    rfl

theorem create_report_document_spec (pictureErr : List Nat → Option String)
    (now : List Char) (r : ReportSpec) :
    create_report_document pictureErr now r.toJson =
      .ok (docIntro now r.title r.global_summary
             ++ groupsBlock pictureErr r.analysis_results, Json.str r.title) := by
  obtain ⟨title, summary, groups⟩ := r
  have hg := renderGroups_spec pictureErr 1 groups
  show (match renderGroups pictureErr 1 (groups.map GroupSpec.toJson) with
        | Except.error e => Except.error e
        | Except.ok groupItems =>
          Except.ok ((DocItem.heading 0 (stripPdfAll title.data)
            :: DocItem.para ("생성일: ".data ++ now)
            :: DocItem.pageBreak
            :: DocItem.heading 1 "Executive Summary".data
            :: (splitLines (pyStr (Json.str summary))).map DocItem.para)
            ++ (DocItem.pageBreak
            :: DocItem.heading 1 "상세 분석 (Detailed Analysis)".data
            :: groupItems), Json.str title)) = _
  rw [hg]
  simp [docIntro, List.append_assoc, pyStr]

theorem create_report_spec (pictureErr : List Nat → Option String) (now : List Char)
    (r : ReportSpec) :
    create_report pictureErr now ⟨true, some r.toJson⟩ =
      ReportResponse.document
        (_sanitize_filename r.title.data ++ "_analysis_report.docx".data)
        (docIntro now r.title r.global_summary
          ++ groupsBlock pictureErr r.analysis_results) := by
  obtain ⟨title, summary, groups⟩ := r
  have hd := create_report_document_spec pictureErr now ⟨title, summary, groups⟩
  show (match create_report_document pictureErr now
          (ReportSpec.toJson ⟨title, summary, groups⟩) with
        | Except.error e => ReportResponse.serverError e
        | Except.ok (doc, t) =>
          ReportResponse.document
            (_sanitize_filename (pyStr t) ++ "_analysis_report.docx".data) doc) = _
  rw [hd]
  rfl

/-- C1: refuted — Flask's `request.is_json` checks only the Content-Type
header; a POST with a JSON content type whose body is NOT valid JSON
(`body = none` here, the `get_json(silent=True)` failure) is treated as an
empty payload and a document is assembled and returned, not a 400 error. -/
theorem C1_counterexample :
    (create_report (fun _ => none) [] ⟨true, none⟩).isDocument = true := rfl

/-- C1 (amended): a request without a JSON content type receives the 400
error response before any document work; a request with a JSON content type
whose body fails to parse as JSON is treated as an empty payload and still
yields a document download. -/
theorem C1_theorem :
    (∀ (pictureErr : List Nat → Option String) (now : List Char) (body : Option Json),
       create_report pictureErr now ⟨false, body⟩ =
         ReportResponse.badRequest invalidRequestMsg) ∧
    (∀ (pictureErr : List Nat → Option String) (now : List Char),
       (create_report pictureErr now ⟨true, none⟩).isDocument = true) :=
  ⟨fun _ _ _ => rfl, fun _ _ => rfl⟩

/-- C2: refuted — a syntactically valid JSON body with a non-string `title`
(here the number 5) does not degrade to a default: `title.replace` raises
`AttributeError`, so the endpoint fails with a 500 and no document. -/
theorem C2_counterexample :
    create_report (fun _ => none) [] ⟨true, some (Json.obj [("title", Json.num 5)])⟩ =
      ReportResponse.serverError "AttributeError" ∧
    (create_report (fun _ => none) []
        ⟨true, some (Json.obj [("title", Json.num 5)])⟩).isDocument = false :=
  ⟨rfl, rfl⟩

theorem renderGroup_nonobj (pictureErr : List Nat → Option String) (index : Nat)
    (r : Json) (h : r.isObj = false) :
    renderGroup pictureErr index r = .ok
      [DocItem.heading 2
         ("그룹 ".data ++ (toString (index : Int)).data ++ " (페이지: ".data
           ++ "N/A".data ++ ")".data),
       DocItem.labeledPara "분석 초점: ".data [],
       DocItem.para [], DocItem.emptyPara] := by
  cases r <;> first | rfl | simp [Json.isObj] at h

theorem renderGroups_ok_of_nonobj (pictureErr : List Nat → Option String) :
    ∀ (index : Nat) (results : List Json), (∀ x ∈ results, x.isObj = false) →
      ∃ items, renderGroups pictureErr index results = .ok items
  | _, [], _ => ⟨[], rfl⟩
  | index, r :: rest, h => by
    have h1 := renderGroup_nonobj pictureErr index r (h r (by simp))
    obtain ⟨items, hi⟩ := renderGroups_ok_of_nonobj pictureErr (index + 1) rest
      (fun x hx => h x (by simp [hx]))
    refine ⟨[DocItem.heading 2
               ("그룹 ".data ++ (toString (index : Int)).data ++ " (페이지: ".data
                 ++ "N/A".data ++ ")".data),
             DocItem.labeledPara "분석 초점: ".data [],
             DocItem.para [], DocItem.emptyPara] ++ items, ?_⟩
    simp only [renderGroups, h1, hi]

/-- C2 (amended): missing fields, an arbitrarily-typed global summary, a
non-list `analysis_results`, and non-mapping analysis entries all degrade
without error and a document is still returned; but a non-string title (the
counterexample) aborts with an unhandled exception instead of degrading. -/
theorem C2_theorem :
    (∀ (pictureErr : List Nat → Option String) (now : List Char) (summary v : Json),
       v.isArr = false →
       (create_report pictureErr now ⟨true, some (Json.obj
          [("title", Json.str "t"), ("global_summary", summary),
           ("analysis_results", v)])⟩).isDocument = true) ∧
    (∀ (pictureErr : List Nat → Option String) (now : List Char) (results : List Json),
       (∀ x ∈ results, x.isObj = false) →
       (create_report pictureErr now ⟨true, some (Json.obj
          [("title", Json.str "t"),
           ("analysis_results", Json.arr results)])⟩).isDocument = true) := by
  constructor
  · intro pictureErr now summary v hv
    cases v
    case arr items => simp [Json.isArr] at hv
    all_goals rfl
  · intro pictureErr now results hall
    obtain ⟨items, hi⟩ := renderGroups_ok_of_nonobj pictureErr 1 results hall
    show (match
           (match renderGroups pictureErr 1 results with
            | Except.error e => Except.error e
            | Except.ok groupItems =>
              Except.ok ((DocItem.heading 0 (stripPdfAll "t".data)
                :: DocItem.para ("생성일: ".data ++ now)
                :: DocItem.pageBreak
                :: DocItem.heading 1 "Executive Summary".data
                :: [DocItem.para []])
                ++ (DocItem.pageBreak
                :: DocItem.heading 1 "상세 분석 (Detailed Analysis)".data
                :: groupItems), Json.str "t")) with
          | Except.error e => ReportResponse.serverError e
          | Except.ok (doc, t) =>
            ReportResponse.document
              (_sanitize_filename (pyStr t) ++ "_analysis_report.docx".data) doc).isDocument
        = true
    rw [hi]
    rfl

/-- C2 witness: a wrongly-typed `analysis_results` (a number) and a list of
non-mapping analysis entries both still produce a document. -/
theorem C2_witness :
    (Json.num 9).isArr = false ∧
    (create_report (fun _ => none) [] ⟨true, some (Json.obj
       [("title", Json.str "t"), ("global_summary", Json.null),
        ("analysis_results", Json.num 9)])⟩).isDocument = true ∧
    (∀ x ∈ [Json.num 1], x.isObj = false) ∧
    (create_report (fun _ => none) [] ⟨true, some (Json.obj
       [("title", Json.str "t"),
        ("analysis_results", Json.arr [Json.num 1])])⟩).isDocument = true :=
  ⟨rfl,
   C2_theorem.1 (fun _ => none) [] Json.null (Json.num 9) rfl,
   by simp [Json.isObj],
   C2_theorem.2 (fun _ => none) [] [Json.num 1] (by simp [Json.isObj])⟩

theorem mem_groupsBlock_of_mem (pictureErr : List Nat → Option String) (x : DocItem)
    (g : GroupSpec) :
    ∀ (gs : List GroupSpec), g ∈ gs → x ∈ groupBlock pictureErr g →
      x ∈ groupsBlock pictureErr gs
  | [], h, _ => absurd h (List.not_mem_nil g)
  | g' :: gs, h, hx => by
    rcases List.mem_cons.mp h with h | h
    · subst h
      exact List.mem_append_left _ hx
    · exact List.mem_append_right _ (mem_groupsBlock_of_mem pictureErr x g gs h hx)

/-- C8: for every well-formed report spec, every group of it carrying a
corrupt image data URL (one whose decode yields none), generation does not
abort: the response is still a document, the corrupt URL contributes no
document item (silent skip), and the document contains that group's bold
intent label and a paragraph for every line of its trailing analysis text. -/
theorem C8_theorem (pictureErr : List Nat → Option String) (now : List Char)
    (r : ReportSpec) (g : GroupSpec) (hg : g ∈ r.analysis_results)
    (u : String) (hu : u ∈ g.images) (hcorrupt : _decode_data_url u.data = none) :
    (create_report pictureErr now ⟨true, some r.toJson⟩).isDocument = true ∧
    imageItems pictureErr u = [] ∧
    DocItem.labeledPara "분석 초점: ".data g.intent.data
      ∈ (create_report pictureErr now ⟨true, some r.toJson⟩).docItems ∧
    (∀ line ∈ splitLines g.analysis.data,
       DocItem.para line ∈ (create_report pictureErr now ⟨true, some r.toJson⟩).docItems) := by
  have hcr := create_report_spec pictureErr now r
  refine ⟨by rw [hcr]; rfl, ?_, ?_, ?_⟩
  · simp [imageItems, hcorrupt, imageDocItemsOfBytes]
  · rw [hcr]
    have hb : DocItem.labeledPara "분석 초점: ".data g.intent.data
        ∈ groupBlock pictureErr g := by
      simp [groupBlock]
    exact List.mem_append_right _
      (mem_groupsBlock_of_mem pictureErr _ g r.analysis_results hg hb)
  · intro line hline
    rw [hcr]
    have hb : DocItem.para line ∈ groupBlock pictureErr g := by
      simp only [groupBlock]
      refine List.mem_append_left _ (List.mem_append_right _ ?_)
      exact List.mem_map.mpr ⟨line, hline, rfl⟩
    exact List.mem_append_right _
      (mem_groupsBlock_of_mem pictureErr _ g r.analysis_results hg hb)

/-- C8 witness: a one-group spec whose image list holds a single data URL
with an invalid base64 payload; its intent and both analysis lines appear in
the produced document. -/
theorem C8_witness :
    (⟨1, [2, 3], "의도", ["data:image/png;base64,A"], "l1\nl2"⟩ : GroupSpec)
      ∈ (⟨"T", "S", [⟨1, [2, 3], "의도", ["data:image/png;base64,A"], "l1\nl2"⟩]⟩ :
          ReportSpec).analysis_results ∧
    ("data:image/png;base64,A" : String)
      ∈ (⟨1, [2, 3], "의도", ["data:image/png;base64,A"], "l1\nl2"⟩ : GroupSpec).images ∧
    _decode_data_url "data:image/png;base64,A".data = none ∧
    ((create_report (fun _ => none) []
        ⟨true, some (⟨"T", "S", [⟨1, [2, 3], "의도", ["data:image/png;base64,A"], "l1\nl2"⟩]⟩ :
          ReportSpec).toJson⟩).isDocument = true ∧
     imageItems (fun _ => none) "data:image/png;base64,A" = [] ∧
     DocItem.labeledPara "분석 초점: ".data "의도".data
       ∈ (create_report (fun _ => none) []
           ⟨true, some (⟨"T", "S", [⟨1, [2, 3], "의도", ["data:image/png;base64,A"], "l1\nl2"⟩]⟩ :
             ReportSpec).toJson⟩).docItems ∧
     (∀ line ∈ splitLines ("l1\nl2" : String).data,
        DocItem.para line
          ∈ (create_report (fun _ => none) []
              ⟨true, some (⟨"T", "S",
                [⟨1, [2, 3], "의도", ["data:image/png;base64,A"], "l1\nl2"⟩]⟩ :
                ReportSpec).toJson⟩).docItems)) :=
  ⟨List.mem_cons_self _ _, List.mem_cons_self _ _, rfl,
   C8_theorem (fun _ => none) []
     ⟨"T", "S", [⟨1, [2, 3], "의도", ["data:image/png;base64,A"], "l1\nl2"⟩]⟩
     ⟨1, [2, 3], "의도", ["data:image/png;base64,A"], "l1\nl2"⟩
     (List.mem_cons_self _ _) "data:image/png;base64,A" (List.mem_cons_self _ _) rfl⟩

theorem stripPdfAll_no_occurrence : ∀ (t : List Char), hasInfix ".pdf".data t = false →
    stripPdfAll t = t ∧ stripPdfAll (t ++ ".pdf".data) = t
  | [], _ => ⟨rfl, rfl⟩
  | c :: t, h => by
    have hsplit : (".pdf".data.isPrefixOf (c :: t) = false) ∧ hasInfix ".pdf".data t = false := by
      simpa [hasInfix] using h
    obtain ⟨hpre, hrest⟩ := hsplit
    have ih := stripPdfAll_no_occurrence t hrest
    constructor
    · rw [stripPdfAll.eq_def]
      split
      · rename_i heq
        exact List.noConfusion heq
      · rename_i rest' heq
        injection heq with h1 h2
        subst h1
        subst h2
        have htrue : ".pdf".data.isPrefixOf ('.' :: 'p' :: 'd' :: 'f' :: rest') = true :=
          isPrefixOf_append_self ".pdf".data rest'
        rw [hpre] at htrue
        exact absurd htrue (by decide)
      · rename_i ch rest hshape heq
        injection heq with h1 h2
        subst h1
        subst h2
        rw [ih.1]
    · show stripPdfAll (c :: (t ++ ".pdf".data)) = c :: t
      rw [stripPdfAll.eq_def]
      split
      · rename_i heq
        exact List.noConfusion heq
      · rename_i rest' heq
        injection heq with h1 h2
        try subst h1
        match t, h2 with
        | [], h2 =>
          injection h2 with h3 _
          exact absurd h3 (by decide)
        | [a], h2 =>
          injection h2 with _ h4
          injection h4 with h5 _
          exact absurd h5 (by decide)
        | [a, b], h2 =>
          injection h2 with _ h4
          injection h4 with _ h6
          injection h6 with h7 _
          exact absurd h7 (by decide)
        | a :: b :: d :: rest2, h2 =>
          injection h2 with h3 h4
          injection h4 with h5 h6
          injection h6 with h7 _
          subst h3
          subst h5
          subst h7
          have htrue : ".pdf".data.isPrefixOf ('.' :: 'p' :: 'd' :: 'f' :: rest2) = true :=
            isPrefixOf_append_self ".pdf".data rest2
          rw [hpre] at htrue
          exact absurd htrue (by decide)
      · rename_i ch rest hshape heq
        injection heq with h1 h2
        subst h1
        rw [← h2, ih.2]

/-- C9: refuted — `title.replace('.pdf', '')` removes every occurrence, not
only a trailing suffix: the title "x.pdfy" has no trailing ".pdf", so the
claim predicts the heading "x.pdfy", but the assembled document's heading is
"xy". -/
theorem C9_counterexample :
    (create_report (fun _ => none) []
        ⟨true, some (Json.obj [("title", Json.str "x.pdfy")])⟩).docItems.head?
      = some (DocItem.heading 0 "xy".data) ∧
    "xy".data ≠ "x.pdfy".data :=
  ⟨rfl, by decide⟩

/-- C9 (amended): the title heading equals the title with every
non-overlapping occurrence of ".pdf" removed left to right — not only a
trailing one — and the stripping affects the heading only: the download
filename is derived from the original unstripped title. When ".pdf" occurs
nowhere in the title except possibly as a trailing suffix, the heading
coincides with the trailing-suffix strip the claim describes. -/
theorem C9_theorem :
    (∀ (pictureErr : List Nat → Option String) (now : List Char) (title : String),
       create_report pictureErr now ⟨true, some (Json.obj [("title", Json.str title)])⟩ =
         ReportResponse.document
           (_sanitize_filename title.data ++ "_analysis_report.docx".data)
           ([DocItem.heading 0 (stripPdfAll title.data),
             DocItem.para ("생성일: ".data ++ now), DocItem.pageBreak,
             DocItem.heading 1 "Executive Summary".data, DocItem.para [],
             DocItem.pageBreak,
             DocItem.heading 1 "상세 분석 (Detailed Analysis)".data])) ∧
    (∀ t : List Char, hasInfix ".pdf".data t = false →
       stripPdfAll t = t ∧ stripPdfAll (t ++ ".pdf".data) = t) :=
  ⟨fun _ _ _ => rfl, stripPdfAll_no_occurrence⟩

/-- C9 witness: a concrete title request, and the trailing-strip behaviour on
the ".pdf"-free title "report". -/
theorem C9_witness :
    create_report (fun _ => none) [] ⟨true, some (Json.obj [("title", Json.str "a.pdf")])⟩ =
      ReportResponse.document
        (_sanitize_filename "a.pdf".data ++ "_analysis_report.docx".data)
        ([DocItem.heading 0 (stripPdfAll "a.pdf".data),
          DocItem.para ("생성일: ".data ++ []), DocItem.pageBreak,
          DocItem.heading 1 "Executive Summary".data, DocItem.para [],
          DocItem.pageBreak,
          DocItem.heading 1 "상세 분석 (Detailed Analysis)".data]) ∧
    hasInfix ".pdf".data "report".data = false ∧
    stripPdfAll "report".data = "report".data ∧
    stripPdfAll ("report".data ++ ".pdf".data) = "report".data :=
  ⟨C9_theorem.1 (fun _ => none) [] "a.pdf", by decide,
   (C9_theorem.2 "report".data (by decide)).1,
   (C9_theorem.2 "report".data (by decide)).2⟩
